import Mathlib

/-!
Verification of the mol* animation-to-video export pipeline
(`src/extensions/mp4-export/encoder.ts` and the webm-export variant).

The TypeScript functions `encodeMp4Animation` and `encodeWebmAnimation` are
shallowly embedded as pure Lean functions over an explicit presentation-state
record.  JS numbers used for times and frame rates are modelled as `ℚ`
(the arithmetic performed — `ceil`, division, multiplication by a loop
index — is exact on the inputs the claims are about); pixel dimensions are
modelled as `ℤ`.  External effects (clock ticks, frame grabs, encoder frame
submissions, ffmpeg invocations) are recorded as explicit call lists in the
outcome, in invocation order.  Failures of the external world during the
sampling loop and at encoder finalization are injected through an
environment record, so that every exit path of the source functions is a
reachable path of the embedding.
-/

set_option autoImplicit false

namespace Mp4Export

/-- A viewport rectangle, as in `mol-canvas3d/camera/util`'s `Viewport`. -/
structure Viewport where
  x : Int
  y : Int
  width : Int
  height : Int
deriving DecidableEq, Repr

/-- The parameter record of `encodeMp4Animation` / `encodeWebmAnimation`
(`Mp4EncoderParams` in the source).  `fps` and `quantizationParameter` are
optional JS numbers (`Option ℚ`); the optional custom background color and
the optional postprocessing override are modelled as opaque scalars. -/
structure Mp4EncoderParams where
  width : Int
  height : Int
  viewport : Viewport
  fps : Option ℚ
  quantizationParameter : Option ℚ
  customBackground : Option Int
  postprocessing : Option Int
deriving DecidableEq, Repr

/-- JS truthiness of an optional number: `undefined` and `0` are falsy
(`if (params.fps)`, `if (params.quantizationParameter)` in the source). -/
def truthy : Option ℚ → Bool
  | none => false
  | some v => v ≠ 0

/-- The mutable presentation state touched by the export job: canvas3d
renderer background color and transparent-background flag, the image pass's
postprocessing props (opaque scalar), the animation loop's running flag
(`loop.isAnimating`), and the animation manager's playing flag. -/
structure PresentationState where
  backgroundColor : Int
  transparentBackground : Bool
  passPostprocessing : Int
  loopRunning : Bool
  playing : Bool
deriving DecidableEq, Repr

/-- Modelled from the spec: `ParamDefinition.merge(PostprocessingParams,
current, overrides)` (the `mol-util/param-definition` helper is not part of
the excerpted sources) — "merge postprocessing overrides into pass defaults
— overrides win on key collision".  With props as opaque scalars this is:
keep the current props when no override is supplied, otherwise the override
wins. -/
def mergePostprocessing (current : Int) (overrides : Option Int) : Int :=
  match overrides with
  | none => current
  | some o => o

/-- The H.264 encoder object (`h264-mp4-encoder`'s `H264MP4Encoder`),
reduced to the fields the export job reads or writes. -/
structure EncoderState where
  width : Int
  height : Int
  frameRate : ℚ
  quantizationParameter : ℚ
  frames : List Nat
  finalized : Bool
  deleted : Bool
deriving DecidableEq, Repr

/-- Modelled from the spec: the encoder created by `HME.createH264MP4Encoder`
(an external library, not part of the excerpted sources) starts with its
built-in defaults — frame rate 30 (the source's doc comment on `fps` says
"default is 30") and quantization parameter 33 — no frames, not finalized,
not deleted. -/
def freshEncoder : EncoderState :=
  { width := 0, height := 0, frameRate := 30, quantizationParameter := 33,
    frames := [], finalized := false, deleted := false }

/-- The environment a job runs against: what
`PluginStateAnimation.getDuration` reports for the job's animation, whether
the external world throws during the sampling-loop body at a given sample
index, and whether `encoder.finalize()` throws. -/
structure Env where
  durationMs : Option ℚ
  failAt : Option Nat
  finalizeFails : Bool
deriving DecidableEq, Repr

/-- The errors a job can raise. -/
inductive ExportError where
  | viewportExceedsCanvas
  | durationUndefined
  | samplingFailed (i : Nat)
  | finalizeFailed
deriving DecidableEq, Repr

/-- One `pass.getImageData(width, height, viewport)` invocation. -/
structure ImageCall where
  width : Int
  height : Int
  viewport : Viewport
deriving DecidableEq, Repr

/-- The per-job sample schedule: the frame rate actually used, the sample
count `N` and the step `dt`. -/
structure Schedule where
  fps : ℚ
  sampleCount : Int
  stepMs : ℚ
deriving DecidableEq, Repr

/-- One `ffmpeg(...)` invocation of the webm variant: codec, the dimensions
given in the `-s` input option, the `-r` frame rate, and the output file
extension. -/
structure FfmpegCall where
  codec : String
  sizeWidth : Int
  sizeHeight : Int
  fps : ℚ
  outputExt : String
deriving DecidableEq, Repr

/-- `vw % 2 !== 0 ? vw - 1 : vw` — dimensions must be a multiple of 2. -/
def evenAlign (v : Int) : Int :=
  if v % 2 ≠ 0 then v - 1 else v

/-- `{...params.viewport, width: vw, height: vh}` with even-aligned sizes. -/
def normalizeViewport (vp : Viewport) : Viewport :=
  { vp with width := evenAlign vp.width, height := evenAlign vp.height }

/-- The viewport-geometry test of `validateViewport`: the function throws
exactly when this predicate FAILS. -/
def viewportValid (params : Mp4EncoderParams) : Prop :=
  params.viewport.x + params.viewport.width ≤ params.width ∧
    params.viewport.y + params.viewport.height ≤ params.height

instance (params : Mp4EncoderParams) : Decidable (viewportValid params) := by
  unfold viewportValid; infer_instance

/-- `N = Math.ceil(durationMs / 1000 * fps)`. -/
def sampleCountOf (durationMs fps : ℚ) : Int :=
  ⌈durationMs / 1000 * fps⌉

/-- The frame rate the job effectively runs with: the supplied `fps` when it
is truthy, otherwise 30 (the encoder default in the mp4 variant, the
explicit `if (!params.fps) params.fps = 30` in the webm variant). -/
def resolvedFps (fps : Option ℚ) : ℚ :=
  if truthy fps then fps.getD 0 else 30

/-- The index list of `for (let i = 0; i <= N; i++)`. -/
def loopIndices (N : Int) : List Nat :=
  if 0 ≤ N then List.range (N.toNat + 1) else []

/-- Result of running the sampling loop: clock-tick timestamps in order,
`getImageData` calls in order, sample indices pushed to the encoder in
order, and the index at which the injected failure fired (if it did). -/
structure LoopResult where
  ticks : List ℚ
  imageCalls : List ImageCall
  frames : List Nat
  failed : Option Nat
deriving DecidableEq, Repr

/-- The sampling loop body, per remaining index: tick the clock at `i * dt`,
then (unless the injected failure fires at `i`) grab one frame at
`(width, height, normalizedViewport)` and push it to the encoder.  A failure
raises out of the loop: later indices are not visited. -/
def sampleLoop (failAt : Option Nat) (dt : ℚ) (w h : Int) (nvp : Viewport) :
    List Nat → LoopResult
  | [] => { ticks := [], imageCalls := [], frames := [], failed := none }
  | i :: rest =>
    if failAt = some i then
      { ticks := [(i : ℚ) * dt], imageCalls := [], frames := [], failed := some i }
    else
      let r := sampleLoop failAt dt w h nvp rest
      { ticks := (i : ℚ) * dt :: r.ticks,
        imageCalls := ⟨w, h, nvp⟩ :: r.imageCalls,
        frames := i :: r.frames,
        failed := r.failed }

/-- The `finally` block of `encodeMp4Animation`: delete the encoder if (and
only if) it was finalized; if a custom background was applied, reset the
background color and transparent flag to the snapshot taken before the job;
stop playback if it was not already stopped; restart the animation loop if
it was animating before the job. -/
def finallyBlock (params : Mp4EncoderParams) (snapBg : Int) (snapTransparent : Bool)
    (wasAnimating stoppedAnimation : Bool) (enc : EncoderState) (s : PresentationState) :
    EncoderState × PresentationState :=
  let enc := if enc.finalized then { enc with deleted := true } else enc
  let s := if params.customBackground.isSome then
      { s with backgroundColor := snapBg, transparentBackground := snapTransparent }
    else s
  let s := if !stoppedAnimation then { s with playing := false } else s
  let s := if wasAnimating then { s with loopRunning := true } else s
  (enc, s)

instance exceptDecEq {ε α : Type} [DecidableEq ε] [DecidableEq α] :
    DecidableEq (Except ε α) := fun a b =>
  match a, b with
  | .error e₁, .error e₂ =>
    if h : e₁ = e₂ then .isTrue (by rw [h]) else .isFalse (by simp [h])
  | .error _, .ok _ => .isFalse (by simp)
  | .ok _, .error _ => .isFalse (by simp)
  | .ok v₁, .ok v₂ =>
    if h : v₁ = v₂ then .isTrue (by rw [h]) else .isFalse (by simp [h])

/-- The quantization parameter the encoder ends up with: the supplied one
when truthy, otherwise the encoder default 33
(`if (params.quantizationParameter) encoder.quantizationParameter = ...`). -/
def jobQp (qp : Option ℚ) : ℚ :=
  if truthy qp then qp.getD 0 else 33

/-- The encoder right after creation and configuration
(`encoder.width = vw; encoder.height = vh;` plus the two truthiness-guarded
assignments, then `encoder.initialize()`): even-aligned viewport dimensions,
resolved frame rate and quantization parameter, no frames yet. -/
def configuredEncoder (params : Mp4EncoderParams) : EncoderState :=
  let enc := { freshEncoder with
    width := evenAlign params.viewport.width,
    height := evenAlign params.viewport.height }
  let enc := if truthy params.quantizationParameter then
      { enc with quantizationParameter := params.quantizationParameter.getD 0 }
    else enc
  if truthy params.fps then { enc with frameRate := params.fps.getD 0 } else enc

/-- The presentation state after the pre-loop mutations common to both
variants: postprocessing override merged into the pass props
(`params.pass.setProps`), animation loop stopped (`loop.stop()`), and — when
a custom background is supplied — background color set to it with the
transparent-background flag forced to `transparentFlag` (`false` in the mp4
variant, `true` in the webm variant). -/
def overriddenState (transparentFlag : Bool) (params : Mp4EncoderParams)
    (s0 : PresentationState) : PresentationState :=
  let s := { s0 with
    passPostprocessing := mergePostprocessing s0.passPostprocessing params.postprocessing }
  let s := { s with loopRunning := false }
  match params.customBackground with
  | none => s
  | some c => { s with backgroundColor := c, transparentBackground := transparentFlag }

/-- The complete observable outcome of one `encodeMp4Animation` job. -/
structure Mp4Outcome where
  result : Except ExportError (List Nat)
  state : PresentationState
  encoder : Option EncoderState
  schedule : Option Schedule
  overrideApplied : Option (Int × Bool)
  ticks : List ℚ
  imageCalls : List ImageCall
deriving DecidableEq, Repr

/-- The body of `encodeMp4Animation` past validation and duration
resolution (the part from `HME.createH264MP4Encoder()` on): create and
configure the encoder (falsy `fps` / `quantizationParameter` leave the
defaults); snapshot the canvas props and `loop.isAnimating`; merge the
postprocessing override into the pass props; then, inside `try ... finally`,
stop the loop, apply the optional custom background with
`transparentBackground: false`, compute the schedule from
`encoder.frameRate`, start playback, run the sampling loop, stop playback,
finalize, and run the `finally` block on every exit path of the `try`. -/
def mp4Job (env : Env) (params : Mp4EncoderParams) (s0 : PresentationState)
    (durationMs : ℚ) : Mp4Outcome :=
  let normalizedViewport := normalizeViewport params.viewport
  let enc := configuredEncoder params
  let snapBg := s0.backgroundColor
  let snapTransparent := s0.transparentBackground
  let wasAnimating := s0.loopRunning
  let overrideApplied := params.customBackground.map fun c => (c, false)
  let s := overriddenState false params s0
  let fps := enc.frameRate
  let N := sampleCountOf durationMs fps
  let dt := durationMs / (N : ℚ)
  let s := { s with playing := true }
  let r := sampleLoop env.failAt dt params.width params.height normalizedViewport
    (loopIndices N)
  let enc := { enc with frames := r.frames }
  match r.failed with
  | some i =>
    let p := finallyBlock params snapBg snapTransparent wasAnimating false enc s
    { result := .error (.samplingFailed i), state := p.2, encoder := some p.1,
      schedule := some ⟨fps, N, dt⟩, overrideApplied := overrideApplied,
      ticks := r.ticks, imageCalls := r.imageCalls }
  | none =>
    let s := { s with playing := false }
    if env.finalizeFails then
      let p := finallyBlock params snapBg snapTransparent wasAnimating true enc s
      { result := .error .finalizeFailed, state := p.2, encoder := some p.1,
        schedule := some ⟨fps, N, dt⟩, overrideApplied := overrideApplied,
        ticks := r.ticks, imageCalls := r.imageCalls }
    else
      let enc := { enc with finalized := true }
      let p := finallyBlock params snapBg snapTransparent wasAnimating true enc s
      { result := .ok enc.frames, state := p.2, encoder := some p.1,
        schedule := some ⟨fps, N, dt⟩, overrideApplied := overrideApplied,
        ticks := r.ticks, imageCalls := r.imageCalls }

/-- Shallow embedding of `encodeMp4Animation`
(`src/extensions/mp4-export/encoder.ts`): validate the viewport, resolve the
animation duration, then run the job body `mp4Job`. -/
def encodeMp4Animation (env : Env) (params : Mp4EncoderParams)
    (s0 : PresentationState) : Mp4Outcome :=
  if params.viewport.x + params.viewport.width > params.width ∨
      params.viewport.y + params.viewport.height > params.height then
    { result := .error .viewportExceedsCanvas, state := s0, encoder := none,
      schedule := none, overrideApplied := none, ticks := [], imageCalls := [] }
  else
    match env.durationMs with
    | none =>
      { result := .error .durationUndefined, state := s0, encoder := none,
        schedule := none, overrideApplied := none, ticks := [], imageCalls := [] }
    | some durationMs => mp4Job env params s0 durationMs

/-- The complete observable outcome of one `encodeWebmAnimation` job.
`result` is what the caller observes (the function's whole body sits inside
`try { ... } catch (e) { console.error(e) }`, so the returned promise always
resolves normally); `loggedError` is the error the `catch` block passed to
`console.error`, if any. -/
structure WebmOutcome where
  result : Except ExportError Unit
  loggedError : Option ExportError
  state : PresentationState
  schedule : Option Schedule
  overrideApplied : Option (Int × Bool)
  ticks : List ℚ
  imageCalls : List ImageCall
  frames : List Nat
  ffmpegCalls : List FfmpegCall
deriving DecidableEq, Repr

/-- Shallow embedding of `encodeWebmAnimation` (the active webm-export
variant).  Differences from `encodeMp4Animation`, mirrored from the source:
the whole body is wrapped in `try/catch` whose handler only logs the error;
`fps` defaults to 30 via `if (!params.fps) params.fps = 30`; a custom
background is applied with `transparentBackground: true`; frames are
collected into an array and then handed to two `ffmpeg` invocations
(`hevc_nvenc` → `.mov`, `libvpx-vp9` → `.webm`) whose `-s` input option
carries the raw target `width`×`height`; there is no `finally` block —
on any error nothing is restored, and even on success playback is never
stopped and the loop is never restarted.  This is the body past validation
and duration resolution; `encodeWebmAnimation` below adds those two steps
and the logging `catch`. -/
def webmJob (env : Env) (params : Mp4EncoderParams) (s0 : PresentationState)
    (durationMs : ℚ) : WebmOutcome :=
  let fps := resolvedFps params.fps
  let normalizedViewport := normalizeViewport params.viewport
  let overrideApplied := params.customBackground.map fun c => (c, true)
  let s := overriddenState true params s0
  let N := sampleCountOf durationMs fps
  let dt := durationMs / (N : ℚ)
  let s := { s with playing := true }
  let r := sampleLoop env.failAt dt params.width params.height normalizedViewport
    (loopIndices N)
  match r.failed with
  | some i =>
    { result := .ok (), loggedError := some (.samplingFailed i), state := s,
      schedule := some ⟨fps, N, dt⟩, overrideApplied := overrideApplied,
      ticks := r.ticks, imageCalls := r.imageCalls, frames := r.frames,
      ffmpegCalls := [] }
  | none =>
    { result := .ok (), loggedError := none, state := s,
      schedule := some ⟨fps, N, dt⟩, overrideApplied := overrideApplied,
      ticks := r.ticks, imageCalls := r.imageCalls, frames := r.frames,
      ffmpegCalls := [
        { codec := "hevc_nvenc", sizeWidth := params.width,
          sizeHeight := params.height, fps := fps, outputExt := ".mov" },
        { codec := "libvpx-vp9", sizeWidth := params.width,
          sizeHeight := params.height, fps := fps, outputExt := ".webm" }] }

/-- Shallow embedding of `encodeWebmAnimation`: validate the viewport and
resolve the duration (both failures are caught by the surrounding `catch`
and only logged), then run `webmJob`. -/
def encodeWebmAnimation (env : Env) (params : Mp4EncoderParams)
    (s0 : PresentationState) : WebmOutcome :=
  if params.viewport.x + params.viewport.width > params.width ∨
      params.viewport.y + params.viewport.height > params.height then
    { result := .ok (), loggedError := some .viewportExceedsCanvas, state := s0,
      schedule := none, overrideApplied := none, ticks := [], imageCalls := [],
      frames := [], ffmpegCalls := [] }
  else
    match env.durationMs with
    | none =>
      { result := .ok (), loggedError := some .durationUndefined, state := s0,
        schedule := none, overrideApplied := none, ticks := [], imageCalls := [],
        frames := [], ffmpegCalls := [] }
    | some durationMs => webmJob env params s0 durationMs

/-- The presentation state `encodeMp4Animation`'s `finally` block leaves
behind once the job body has started: background color and transparency
back at their pre-job values, playback stopped, the loop running again
exactly when it ran before — but the merged postprocessing props still in
place (the `finally` block never touches `params.pass`). -/
def restoredState (params : Mp4EncoderParams) (s0 : PresentationState) :
    PresentationState :=
  { backgroundColor := s0.backgroundColor,
    transparentBackground := s0.transparentBackground,
    passPostprocessing := mergePostprocessing s0.passPostprocessing params.postprocessing,
    loopRunning := s0.loopRunning,
    playing := false }

theorem sampleLoop_no_fail (dt : ℚ) (w h : Int) (nvp : Viewport) (l : List Nat) :
    sampleLoop none dt w h nvp l =
      { ticks := l.map fun i : Nat => (i : ℚ) * dt,
        imageCalls := l.map fun _ => ⟨w, h, nvp⟩,
        frames := l, failed := none } := by
  induction l with
  | nil => rfl
  | cons i rest ih => simp [sampleLoop, ih]

theorem sampleLoop_failed_of_mem (k : Nat) (dt : ℚ) (w h : Int) (nvp : Viewport)
    (l : List Nat) (hk : k ∈ l) :
    (sampleLoop (some k) dt w h nvp l).failed = some k := by
  induction l with
  | nil => cases hk
  | cons i rest ih =>
    by_cases hki : k = i
    · subst hki; simp [sampleLoop]
    · rcases List.mem_cons.mp hk with h' | h'
      · exact absurd h' hki
      · simp [sampleLoop, Option.some.injEq, hki, ih h']

theorem sampleLoop_imageCalls_shape (failAt : Option Nat) (dt : ℚ) (w h : Int)
    (nvp : Viewport) (l : List Nat) :
    ∀ c ∈ (sampleLoop failAt dt w h nvp l).imageCalls, c = ⟨w, h, nvp⟩ := by
  induction l with
  | nil => intro c hc; cases hc
  | cons i rest ih =>
    intro c hc
    simp only [sampleLoop] at hc
    by_cases hf : failAt = some i
    · rw [if_pos hf] at hc; cases hc
    · rw [if_neg hf] at hc
      rcases List.mem_cons.mp hc with h' | h'
      · exact h'
      · exact ih c h'

theorem loopIndices_of_nonneg (N : Int) (h : 0 ≤ N) :
    loopIndices N = List.range (N.toNat + 1) := by
  simp [loopIndices, h]

theorem configuredEncoder_eq (params : Mp4EncoderParams) :
    configuredEncoder params =
      { width := evenAlign params.viewport.width,
        height := evenAlign params.viewport.height,
        frameRate := resolvedFps params.fps,
        quantizationParameter := jobQp params.quantizationParameter,
        frames := [], finalized := false, deleted := false } := by
  unfold configuredEncoder resolvedFps jobQp freshEncoder
  by_cases h1 : truthy params.quantizationParameter <;>
    by_cases h2 : truthy params.fps <;> simp [h1, h2]

theorem encodeMp4_invalid (env : Env) (params : Mp4EncoderParams)
    (s0 : PresentationState)
    (h : params.viewport.x + params.viewport.width > params.width ∨
      params.viewport.y + params.viewport.height > params.height) :
    encodeMp4Animation env params s0 =
      { result := .error .viewportExceedsCanvas, state := s0, encoder := none,
        schedule := none, overrideApplied := none, ticks := [], imageCalls := [] } := by
  unfold encodeMp4Animation
  rw [if_pos h]

theorem encodeMp4_eq_job (env : Env) (params : Mp4EncoderParams)
    (s0 : PresentationState) (d : ℚ) (hvp : viewportValid params)
    (hd : env.durationMs = some d) :
    encodeMp4Animation env params s0 = mp4Job env params s0 d := by
  have hnot : ¬(params.viewport.x + params.viewport.width > params.width ∨
      params.viewport.y + params.viewport.height > params.height) :=
    not_or.mpr ⟨not_lt.mpr hvp.1, not_lt.mpr hvp.2⟩
  unfold encodeMp4Animation
  rw [if_neg hnot, hd]

theorem encodeWebm_eq_job (env : Env) (params : Mp4EncoderParams)
    (s0 : PresentationState) (d : ℚ) (hvp : viewportValid params)
    (hd : env.durationMs = some d) :
    encodeWebmAnimation env params s0 = webmJob env params s0 d := by
  have hnot : ¬(params.viewport.x + params.viewport.width > params.width ∨
      params.viewport.y + params.viewport.height > params.height) :=
    not_or.mpr ⟨not_lt.mpr hvp.1, not_lt.mpr hvp.2⟩
  unfold encodeWebmAnimation
  rw [if_neg hnot, hd]

theorem mp4Job_state (env : Env) (params : Mp4EncoderParams)
    (s0 : PresentationState) (d : ℚ) :
    (mp4Job env params s0 d).state = restoredState params s0 := by
  unfold mp4Job finallyBlock overriddenState restoredState
  rcases hcb : params.customBackground with _ | c <;>
    cases hla : s0.loopRunning <;>
      simp [hcb, hla, configuredEncoder_eq] <;>
        split <;> simp [apply_ite Mp4Outcome.state]

theorem mp4Job_schedule (env : Env) (params : Mp4EncoderParams)
    (s0 : PresentationState) (d : ℚ) :
    (mp4Job env params s0 d).schedule =
      some { fps := resolvedFps params.fps,
             sampleCount := sampleCountOf d (resolvedFps params.fps),
             stepMs := d / (sampleCountOf d (resolvedFps params.fps) : ℚ) } := by
  unfold mp4Job
  simp only [configuredEncoder_eq]
  rcases hfl : (sampleLoop env.failAt (d / (sampleCountOf d (resolvedFps params.fps) : ℚ))
      params.width params.height (normalizeViewport params.viewport)
      (loopIndices (sampleCountOf d (resolvedFps params.fps)))).failed with _ | k <;>
    simp [hfl, apply_ite Mp4Outcome.schedule]

theorem mp4Job_overrideApplied (env : Env) (params : Mp4EncoderParams)
    (s0 : PresentationState) (d : ℚ) :
    (mp4Job env params s0 d).overrideApplied =
      params.customBackground.map fun c => (c, false) := by
  unfold mp4Job
  simp only [configuredEncoder_eq]
  rcases hfl : (sampleLoop env.failAt (d / (sampleCountOf d (resolvedFps params.fps) : ℚ))
      params.width params.height (normalizeViewport params.viewport)
      (loopIndices (sampleCountOf d (resolvedFps params.fps)))).failed with _ | k <;>
    simp [hfl, apply_ite Mp4Outcome.overrideApplied]

theorem mp4Job_encoder_spec (env : Env) (params : Mp4EncoderParams)
    (s0 : PresentationState) (d : ℚ) :
    ∃ e : EncoderState, (mp4Job env params s0 d).encoder = some e ∧
      e.width = evenAlign params.viewport.width ∧
      e.height = evenAlign params.viewport.height ∧
      e.frameRate = resolvedFps params.fps ∧
      e.quantizationParameter = jobQp params.quantizationParameter ∧
      e.deleted = e.finalized := by
  unfold mp4Job finallyBlock
  simp only [configuredEncoder_eq]
  rcases hfl : (sampleLoop env.failAt (d / (sampleCountOf d (resolvedFps params.fps) : ℚ))
      params.width params.height (normalizeViewport params.viewport)
      (loopIndices (sampleCountOf d (resolvedFps params.fps)))).failed with _ | k
  · simp only [hfl]
    split
    · exact ⟨_, rfl, by simp, by simp, by simp, by simp, by simp⟩
    · exact ⟨_, rfl, by simp, by simp, by simp, by simp, by simp⟩
  · simp only [hfl]
    exact ⟨_, rfl, by simp, by simp, by simp, by simp, by simp⟩

theorem mp4Job_imageCalls (env : Env) (params : Mp4EncoderParams)
    (s0 : PresentationState) (d : ℚ) :
    ∀ c ∈ (mp4Job env params s0 d).imageCalls,
      c = ⟨params.width, params.height, normalizeViewport params.viewport⟩ := by
  unfold mp4Job
  simp only [configuredEncoder_eq]
  rcases hfl : (sampleLoop env.failAt (d / (sampleCountOf d (resolvedFps params.fps) : ℚ))
      params.width params.height (normalizeViewport params.viewport)
      (loopIndices (sampleCountOf d (resolvedFps params.fps)))).failed with _ | k
  · intro c hc
    simp only [hfl, apply_ite Mp4Outcome.imageCalls, ite_self] at hc
    exact sampleLoop_imageCalls_shape _ _ _ _ _ _ c hc
  · intro c hc
    simp only [hfl] at hc
    exact sampleLoop_imageCalls_shape _ _ _ _ _ _ c hc

theorem mp4Job_success (env : Env) (params : Mp4EncoderParams)
    (s0 : PresentationState) (d : ℚ)
    (hfail : env.failAt = none) (hfin : env.finalizeFails = false)
    (hN : 0 ≤ sampleCountOf d (resolvedFps params.fps)) :
    (mp4Job env params s0 d).result =
      .ok (List.range ((sampleCountOf d (resolvedFps params.fps)).toNat + 1)) ∧
    (mp4Job env params s0 d).ticks =
      (List.range ((sampleCountOf d (resolvedFps params.fps)).toNat + 1)).map
        (fun i : Nat => (i : ℚ) * (d / (sampleCountOf d (resolvedFps params.fps) : ℚ))) ∧
    (mp4Job env params s0 d).imageCalls =
      (List.range ((sampleCountOf d (resolvedFps params.fps)).toNat + 1)).map
        (fun _ => { width := params.width, height := params.height,
                    viewport := normalizeViewport params.viewport }) := by
  unfold mp4Job
  simp only [configuredEncoder_eq, hfail]
  rw [loopIndices_of_nonneg _ hN, sampleLoop_no_fail]
  simp [hfin]

theorem mp4Job_sampling_fail (env : Env) (params : Mp4EncoderParams)
    (s0 : PresentationState) (d : ℚ) (k : Nat)
    (hfail : env.failAt = some k)
    (hN : 0 ≤ sampleCountOf d (resolvedFps params.fps))
    (hk : k ≤ (sampleCountOf d (resolvedFps params.fps)).toNat) :
    (mp4Job env params s0 d).result = .error (.samplingFailed k) := by
  unfold mp4Job
  simp only [configuredEncoder_eq, hfail]
  rw [loopIndices_of_nonneg _ hN]
  have hmem : k ∈ List.range ((sampleCountOf d (resolvedFps params.fps)).toNat + 1) :=
    List.mem_range.mpr (Nat.lt_succ_of_le hk)
  simp [sampleLoop_failed_of_mem _ _ _ _ _ _ hmem]

theorem webmJob_result (env : Env) (params : Mp4EncoderParams)
    (s0 : PresentationState) (d : ℚ) :
    (webmJob env params s0 d).result = .ok () := by
  simp only [webmJob]
  split <;> rfl

theorem encodeWebm_result (env : Env) (params : Mp4EncoderParams)
    (s0 : PresentationState) :
    (encodeWebmAnimation env params s0).result = .ok () := by
  unfold encodeWebmAnimation
  split
  · rfl
  · split
    · rfl
    · exact webmJob_result _ _ _ _

theorem webmJob_state (env : Env) (params : Mp4EncoderParams)
    (s0 : PresentationState) (d : ℚ) :
    (webmJob env params s0 d).state =
      { overriddenState true params s0 with playing := true } := by
  simp only [webmJob]
  split <;> rfl

theorem webmJob_overrideApplied (env : Env) (params : Mp4EncoderParams)
    (s0 : PresentationState) (d : ℚ) :
    (webmJob env params s0 d).overrideApplied =
      params.customBackground.map fun c => (c, true) := by
  simp only [webmJob]
  split <;> rfl

theorem webmJob_schedule (env : Env) (params : Mp4EncoderParams)
    (s0 : PresentationState) (d : ℚ) :
    (webmJob env params s0 d).schedule =
      some { fps := resolvedFps params.fps,
             sampleCount := sampleCountOf d (resolvedFps params.fps),
             stepMs := d / (sampleCountOf d (resolvedFps params.fps) : ℚ) } := by
  simp only [webmJob]
  split <;> rfl

theorem webmJob_imageCalls (env : Env) (params : Mp4EncoderParams)
    (s0 : PresentationState) (d : ℚ) :
    ∀ c ∈ (webmJob env params s0 d).imageCalls,
      c = ⟨params.width, params.height, normalizeViewport params.viewport⟩ := by
  simp only [webmJob]
  split
  all_goals exact fun c hc => sampleLoop_imageCalls_shape _ _ _ _ _ _ c hc

theorem webmJob_success (env : Env) (params : Mp4EncoderParams)
    (s0 : PresentationState) (d : ℚ)
    (hfail : env.failAt = none)
    (hN : 0 ≤ sampleCountOf d (resolvedFps params.fps)) :
    (webmJob env params s0 d).frames =
      List.range ((sampleCountOf d (resolvedFps params.fps)).toNat + 1) ∧
    (webmJob env params s0 d).ticks =
      (List.range ((sampleCountOf d (resolvedFps params.fps)).toNat + 1)).map
        (fun i : Nat => (i : ℚ) * (d / (sampleCountOf d (resolvedFps params.fps) : ℚ))) ∧
    (webmJob env params s0 d).ffmpegCalls =
      [{ codec := "hevc_nvenc", sizeWidth := params.width,
         sizeHeight := params.height, fps := resolvedFps params.fps, outputExt := ".mov" },
       { codec := "libvpx-vp9", sizeWidth := params.width,
         sizeHeight := params.height, fps := resolvedFps params.fps, outputExt := ".webm" }] := by
  simp only [webmJob, hfail]
  rw [loopIndices_of_nonneg _ hN, sampleLoop_no_fail]
  simp

theorem webmJob_sampling_fail (env : Env) (params : Mp4EncoderParams)
    (s0 : PresentationState) (d : ℚ) (k : Nat)
    (hfail : env.failAt = some k)
    (hN : 0 ≤ sampleCountOf d (resolvedFps params.fps))
    (hk : k ≤ (sampleCountOf d (resolvedFps params.fps)).toNat) :
    (webmJob env params s0 d).loggedError = some (.samplingFailed k) ∧
    (webmJob env params s0 d).ffmpegCalls = [] := by
  simp only [webmJob, hfail]
  rw [loopIndices_of_nonneg _ hN]
  have hmem : k ∈ List.range ((sampleCountOf d (resolvedFps params.fps)).toNat + 1) :=
    List.mem_range.mpr (Nat.lt_succ_of_le hk)
  simp [sampleLoop_failed_of_mem _ _ _ _ _ _ hmem]

theorem mp4Job_success_encoder (env : Env) (params : Mp4EncoderParams)
    (s0 : PresentationState) (d : ℚ)
    (hfail : env.failAt = none) (hfin : env.finalizeFails = false)
    (hN : 0 ≤ sampleCountOf d (resolvedFps params.fps)) :
    ((mp4Job env params s0 d).encoder).map EncoderState.deleted = some true := by
  unfold mp4Job finallyBlock
  simp only [configuredEncoder_eq, hfail]
  rw [loopIndices_of_nonneg _ hN, sampleLoop_no_fail]
  simp [hfin]

theorem mp4Job_fail_encoder (env : Env) (params : Mp4EncoderParams)
    (s0 : PresentationState) (d : ℚ) (k : Nat)
    (hfail : env.failAt = some k)
    (hN : 0 ≤ sampleCountOf d (resolvedFps params.fps))
    (hk : k ≤ (sampleCountOf d (resolvedFps params.fps)).toNat) :
    ((mp4Job env params s0 d).encoder).map EncoderState.deleted = some false := by
  unfold mp4Job finallyBlock
  simp only [configuredEncoder_eq, hfail]
  rw [loopIndices_of_nonneg _ hN]
  have hmem : k ∈ List.range ((sampleCountOf d (resolvedFps params.fps)).toNat + 1) :=
    List.mem_range.mpr (Nat.lt_succ_of_le hk)
  simp [sampleLoop_failed_of_mem _ _ _ _ _ _ hmem]

theorem webmJob_ffmpegCalls_shape (env : Env) (params : Mp4EncoderParams)
    (s0 : PresentationState) (d : ℚ) :
    ∀ c ∈ (webmJob env params s0 d).ffmpegCalls,
      c.sizeWidth = params.width ∧ c.sizeHeight = params.height := by
  simp only [webmJob]
  split
  · intro c hc; cases hc
  · intro c hc
    simp only [List.mem_cons, List.not_mem_nil, or_false] at hc
    rcases hc with rfl | rfl <;> exact ⟨rfl, rfl⟩

theorem resolvedFps_ne_zero (fps : Option ℚ) : resolvedFps fps ≠ 0 := by
  unfold resolvedFps truthy
  cases fps with
  | none => simp
  | some v => by_cases hv : v = 0 <;> simp [hv]

/-- Scenario fixture: an 800×800 canvas with the full-canvas viewport. -/
def vpFull : Viewport := { x := 0, y := 0, width := 800, height := 800 }

/-- Scenario fixture: a baseline valid parameter record (no optional knobs). -/
def jobParams : Mp4EncoderParams :=
  { width := 800, height := 800, viewport := vpFull, fps := none,
    quantizationParameter := none, customBackground := none, postprocessing := none }

/-- Scenario fixture: a pre-job presentation state with the loop running. -/
def baseState : PresentationState :=
  { backgroundColor := 7, transparentBackground := true, passPostprocessing := 5,
    loopRunning := true, playing := false }

/-- Scenario fixture: a 100 ms animation, no injected failures
(at the default 30 fps this gives N = 3, i.e. 4 samples). -/
def envOk : Env := { durationMs := some 100, failAt := none, finalizeFails := false }

/-- Scenario fixture: a 100 ms animation with an injected failure at
sample index 1. -/
def envFail : Env := { durationMs := some 100, failAt := some 1, finalizeFails := false }

/-- Scenario fixture: a zero-length animation. -/
def envZero : Env := { durationMs := some 0, failAt := none, finalizeFails := false }

/-- Scenario fixture: scenario B's out-of-bounds viewport (801 wide on an
800-wide canvas). -/
def vpWide : Viewport := { x := 0, y := 0, width := 801, height := 800 }

/-- Scenario fixture: parameters with the out-of-bounds viewport. -/
def paramsWide : Mp4EncoderParams := { jobParams with viewport := vpWide }

/-- Claim C1: for every valid export job (viewport within bounds, duration
defined and positive, positive resolved frame rate, no external failure),
the sample count equals `ceil(durationMs/1000 × frameRate)` and the sampling
loop produces exactly `sampleCount + 1` frames — the encoder receives
exactly the sample indices `0..N` once each, in order; the first clock tick
is at `t = 0` and the last at `t = durationMs`.  The webm variant collects
the same `sampleCount + 1` frames. -/
theorem claim1_sample_count_and_frames (env : Env) (params : Mp4EncoderParams)
    (s0 : PresentationState) (d : ℚ)
    (hvp : viewportValid params) (hd : env.durationMs = some d)
    (hdpos : 0 < d) (hfps : 0 < resolvedFps params.fps)
    (hfail : env.failAt = none) (hfin : env.finalizeFails = false) :
    (encodeMp4Animation env params s0).schedule.map Schedule.sampleCount =
      some ⌈d / 1000 * resolvedFps params.fps⌉ ∧
    (encodeMp4Animation env params s0).result =
      Except.ok (List.range ((sampleCountOf d (resolvedFps params.fps)).toNat + 1)) ∧
    (encodeMp4Animation env params s0).ticks.length =
      (sampleCountOf d (resolvedFps params.fps)).toNat + 1 ∧
    (encodeMp4Animation env params s0).ticks.head? = some 0 ∧
    (encodeMp4Animation env params s0).ticks.getLast? = some d ∧
    (encodeWebmAnimation env params s0).frames =
      List.range ((sampleCountOf d (resolvedFps params.fps)).toNat + 1) := by
  have hNpos : 0 < sampleCountOf d (resolvedFps params.fps) :=
    Int.ceil_pos.mpr (mul_pos (div_pos hdpos (by norm_num)) hfps)
  have hN : 0 ≤ sampleCountOf d (resolvedFps params.fps) := le_of_lt hNpos
  have hNQ : ((sampleCountOf d (resolvedFps params.fps) : Int) : ℚ) ≠ 0 := by
    exact_mod_cast hNpos.ne'
  rw [encodeMp4_eq_job env params s0 d hvp hd, encodeWebm_eq_job env params s0 d hvp hd]
  obtain ⟨hres, hticks, -⟩ := mp4Job_success env params s0 d hfail hfin hN
  refine ⟨?_, hres, ?_, ?_, ?_, (webmJob_success env params s0 d hfail hN).1⟩
  · rw [mp4Job_schedule]; rfl
  · rw [hticks]; simp
  · rw [hticks, List.head?_map]
    have h0 : (List.range ((sampleCountOf d (resolvedFps params.fps)).toNat + 1)).head? =
        some 0 := by
      simp [List.range_succ_eq_map]
    rw [h0]; simp
  · rw [hticks]
    have hsplit : (List.range ((sampleCountOf d (resolvedFps params.fps)).toNat + 1)).map
          (fun i : Nat => (i : ℚ) * (d / (sampleCountOf d (resolvedFps params.fps) : ℚ))) =
        (List.range ((sampleCountOf d (resolvedFps params.fps)).toNat)).map
          (fun i : Nat => (i : ℚ) * (d / (sampleCountOf d (resolvedFps params.fps) : ℚ))) ++
        [((sampleCountOf d (resolvedFps params.fps)).toNat : ℚ) *
          (d / (sampleCountOf d (resolvedFps params.fps) : ℚ))] := by
      rw [List.range_succ, List.map_append]; rfl
    rw [hsplit, List.getLast?_concat]
    have hcast : (((sampleCountOf d (resolvedFps params.fps)).toNat : ℕ) : ℚ) =
        ((sampleCountOf d (resolvedFps params.fps) : Int) : ℚ) := by
      exact_mod_cast Int.toNat_of_nonneg hN
    rw [hcast, mul_comm, div_mul_cancel₀ d hNQ]

/-- Claim C1 witness: scenario with `durationMs = 100`, default frame rate
30, so `N = 3` and 4 frames. -/
theorem claim1_witness :
    (encodeMp4Animation envOk jobParams baseState).schedule.map Schedule.sampleCount =
      some ⌈(100 : ℚ) / 1000 * resolvedFps jobParams.fps⌉ ∧
    (encodeMp4Animation envOk jobParams baseState).result =
      Except.ok (List.range ((sampleCountOf 100 (resolvedFps jobParams.fps)).toNat + 1)) ∧
    (encodeMp4Animation envOk jobParams baseState).ticks.length =
      (sampleCountOf 100 (resolvedFps jobParams.fps)).toNat + 1 ∧
    (encodeMp4Animation envOk jobParams baseState).ticks.head? = some 0 ∧
    (encodeMp4Animation envOk jobParams baseState).ticks.getLast? = some 100 ∧
    (encodeWebmAnimation envOk jobParams baseState).frames =
      List.range ((sampleCountOf 100 (resolvedFps jobParams.fps)).toNat + 1) :=
  claim1_sample_count_and_frames envOk jobParams baseState 100 (by decide) rfl
    (by norm_num) (by norm_num [resolvedFps, truthy, jobParams]) rfl rfl

/-- Claim C3: a job whose viewport violates the geometry invariant fails
with the validation error before any clock tick, render call, encoder
creation, schedule computation, or presentation-state mutation. -/
theorem claim3_validation_fails_fast (env : Env) (params : Mp4EncoderParams)
    (s0 : PresentationState)
    (h : params.viewport.x + params.viewport.width > params.width ∨
      params.viewport.y + params.viewport.height > params.height) :
    (encodeMp4Animation env params s0).result =
      Except.error ExportError.viewportExceedsCanvas ∧
    (encodeMp4Animation env params s0).ticks = [] ∧
    (encodeMp4Animation env params s0).imageCalls = [] ∧
    (encodeMp4Animation env params s0).encoder = none ∧
    (encodeMp4Animation env params s0).schedule = none ∧
    (encodeMp4Animation env params s0).state = s0 := by
  rw [encodeMp4_invalid env params s0 h]
  exact ⟨rfl, rfl, rfl, rfl, rfl, rfl⟩

/-- Claim C3 witness: scenario B — viewport 801×800 on an 800×800 canvas. -/
theorem claim3_witness :
    (encodeMp4Animation envOk paramsWide baseState).result =
      Except.error ExportError.viewportExceedsCanvas ∧
    (encodeMp4Animation envOk paramsWide baseState).ticks = [] ∧
    (encodeMp4Animation envOk paramsWide baseState).imageCalls = [] ∧
    (encodeMp4Animation envOk paramsWide baseState).encoder = none ∧
    (encodeMp4Animation envOk paramsWide baseState).schedule = none ∧
    (encodeMp4Animation envOk paramsWide baseState).state = baseState :=
  claim3_validation_fails_fast envOk paramsWide baseState (Or.inl (by decide))

/-- Claim C4: for every valid job, `stepMs = durationMs / sampleCount`, the
i-th clock tick is at exactly `i × stepMs` for every `i ∈ [0, sampleCount]`,
and `stepMs × sampleCount = durationMs` (exactly, in `ℚ`). -/
theorem claim4_tick_timestamps (env : Env) (params : Mp4EncoderParams)
    (s0 : PresentationState) (d : ℚ)
    (hvp : viewportValid params) (hd : env.durationMs = some d)
    (hdpos : 0 < d) (hfps : 0 < resolvedFps params.fps)
    (hfail : env.failAt = none) (hfin : env.finalizeFails = false) :
    (encodeMp4Animation env params s0).schedule =
      some { fps := resolvedFps params.fps,
             sampleCount := sampleCountOf d (resolvedFps params.fps),
             stepMs := d / (sampleCountOf d (resolvedFps params.fps) : ℚ) } ∧
    (encodeMp4Animation env params s0).ticks =
      (List.range ((sampleCountOf d (resolvedFps params.fps)).toNat + 1)).map
        (fun i : Nat => (i : ℚ) * (d / (sampleCountOf d (resolvedFps params.fps) : ℚ))) ∧
    d / (sampleCountOf d (resolvedFps params.fps) : ℚ) *
      (sampleCountOf d (resolvedFps params.fps) : ℚ) = d := by
  have hNpos : 0 < sampleCountOf d (resolvedFps params.fps) :=
    Int.ceil_pos.mpr (mul_pos (div_pos hdpos (by norm_num)) hfps)
  have hNQ : ((sampleCountOf d (resolvedFps params.fps) : Int) : ℚ) ≠ 0 := by
    exact_mod_cast hNpos.ne'
  rw [encodeMp4_eq_job env params s0 d hvp hd]
  exact ⟨mp4Job_schedule env params s0 d,
    (mp4Job_success env params s0 d hfail hfin (le_of_lt hNpos)).2.1,
    div_mul_cancel₀ d hNQ⟩

/-- Claim C4 witness: `durationMs = 100`, default 30 fps — `N = 3`,
`stepMs = 100/3`, ticks at `0, 100/3, 200/3, 100`. -/
theorem claim4_witness :
    (encodeMp4Animation envOk jobParams baseState).schedule =
      some { fps := resolvedFps jobParams.fps,
             sampleCount := sampleCountOf 100 (resolvedFps jobParams.fps),
             stepMs := 100 / (sampleCountOf 100 (resolvedFps jobParams.fps) : ℚ) } ∧
    (encodeMp4Animation envOk jobParams baseState).ticks =
      (List.range ((sampleCountOf 100 (resolvedFps jobParams.fps)).toNat + 1)).map
        (fun i : Nat => (i : ℚ) * (100 / (sampleCountOf 100 (resolvedFps jobParams.fps) : ℚ))) ∧
    (100 : ℚ) / (sampleCountOf 100 (resolvedFps jobParams.fps) : ℚ) *
      (sampleCountOf 100 (resolvedFps jobParams.fps) : ℚ) = 100 :=
  claim4_tick_timestamps envOk jobParams baseState 100 (by decide) rfl
    (by norm_num) (by norm_num [resolvedFps, truthy, jobParams]) rfl rfl

/-- Scenario fixture: parameters with a postprocessing override. -/
def paramsPP : Mp4EncoderParams := { jobParams with postprocessing := some 9 }

/-- Scenario fixture: an in-bounds viewport with odd width on a 10×10
canvas. -/
def vpOdd : Viewport := { x := 0, y := 0, width := 9, height := 10 }

/-- Scenario fixture: parameters with the odd-width in-bounds viewport. -/
def paramsOdd : Mp4EncoderParams :=
  { width := 10, height := 10, viewport := vpOdd, fps := none,
    quantizationParameter := none, customBackground := none, postprocessing := none }

/-- Scenario fixture: parameters with a custom background color. -/
def paramsBg : Mp4EncoderParams := { jobParams with customBackground := some 3 }

/-- Scenario fixture: parameters supplying `fps = 0` and
`quantizationParameter = 0` (falsy numbers). -/
def paramsFalsy : Mp4EncoderParams :=
  { jobParams with fps := some 0, quantizationParameter := some 0 }

/-- Claim C2 counterexample: on a successfully finished mp4 job with a
postprocessing override, the final pass postprocessing props are the merged
override, not the pre-job value — the `finally` block never restores
`params.pass`, so "the postprocessing properties are restored to their
pre-job values" is false. -/
theorem claim2_counterexample :
    (encodeMp4Animation envOk paramsPP baseState).state.passPostprocessing ≠
      baseState.passPostprocessing := by
  norm_num +decide [encodeMp4Animation, mp4Job, configuredEncoder, freshEncoder,
    overriddenState, finallyBlock, mergePostprocessing, truthy, resolvedFps,
    sampleCountOf, evenAlign, normalizeViewport, loopIndices, sampleLoop, jobQp,
    envOk, jobParams, paramsPP, vpFull, baseState]

/-- Claim C2 (amended): on every exit path of a started mp4 job the
background color and transparent-background flag are back at the snapshot
values, playback is stopped, and the loop is restarted exactly when it ran
before the job — but the pass's postprocessing props KEEP the merged
override (they are not restored), and `encodeWebmAnimation` restores
nothing at all: it leaves playback running and the loop stopped. -/
theorem claim2_amended (env : Env) (params : Mp4EncoderParams)
    (s0 : PresentationState) (d : ℚ)
    (hvp : viewportValid params) (hd : env.durationMs = some d) :
    (encodeMp4Animation env params s0).state = restoredState params s0 ∧
    (restoredState params s0).backgroundColor = s0.backgroundColor ∧
    (restoredState params s0).transparentBackground = s0.transparentBackground ∧
    (restoredState params s0).loopRunning = s0.loopRunning ∧
    (restoredState params s0).playing = false ∧
    (restoredState params s0).passPostprocessing =
      mergePostprocessing s0.passPostprocessing params.postprocessing ∧
    (encodeWebmAnimation env params s0).state =
      { overriddenState true params s0 with playing := true } := by
  rw [encodeMp4_eq_job env params s0 d hvp hd, encodeWebm_eq_job env params s0 d hvp hd]
  exact ⟨mp4Job_state env params s0 d, rfl, rfl, rfl, rfl, rfl,
    webmJob_state env params s0 d⟩

/-- Claim C2 witness: the amended restoration guarantee at the concrete
100 ms job with a postprocessing override. -/
theorem claim2_witness :
    (encodeMp4Animation envOk paramsPP baseState).state =
      restoredState paramsPP baseState ∧
    (restoredState paramsPP baseState).backgroundColor = baseState.backgroundColor ∧
    (restoredState paramsPP baseState).transparentBackground =
      baseState.transparentBackground ∧
    (restoredState paramsPP baseState).loopRunning = baseState.loopRunning ∧
    (restoredState paramsPP baseState).playing = false ∧
    (restoredState paramsPP baseState).passPostprocessing =
      mergePostprocessing baseState.passPostprocessing paramsPP.postprocessing ∧
    (encodeWebmAnimation envOk paramsPP baseState).state =
      { overriddenState true paramsPP baseState with playing := true } :=
  claim2_amended envOk paramsPP baseState 100 (by decide) rfl

/-- Claim C5 counterexample: an injected failure at sample 1 of a webm job
is caught and logged, but the function resolves normally — the error is not
re-raised to the caller — and no restoration runs (playback is left
running). -/
theorem claim5_counterexample :
    (encodeWebmAnimation envFail jobParams baseState).result = Except.ok () ∧
    (encodeWebmAnimation envFail jobParams baseState).loggedError =
      some (ExportError.samplingFailed 1) ∧
    (encodeWebmAnimation envFail jobParams baseState).state.playing = true := by
  refine ⟨encodeWebm_result _ _ _, ?_, ?_⟩ <;>
    norm_num +decide [encodeWebmAnimation, webmJob, overriddenState,
      mergePostprocessing, truthy, resolvedFps, sampleCountOf, evenAlign,
      normalizeViewport, loopIndices, sampleLoop, envFail, jobParams, vpFull,
      baseState]

/-- Claim C5 (amended): `encodeMp4Animation` re-raises any sampling error to
the caller after the `finally`-block restoration has run; `encodeWebmAnimation`
never re-raises anything — its promise always resolves normally, errors are
only logged. -/
theorem claim5_amended :
    (∀ (env : Env) (params : Mp4EncoderParams) (s0 : PresentationState),
      (encodeWebmAnimation env params s0).result = Except.ok ()) ∧
    (∀ (env : Env) (params : Mp4EncoderParams) (s0 : PresentationState) (d : ℚ)
      (k : Nat), viewportValid params → env.durationMs = some d →
      env.failAt = some k →
      0 ≤ sampleCountOf d (resolvedFps params.fps) →
      k ≤ (sampleCountOf d (resolvedFps params.fps)).toNat →
      (encodeMp4Animation env params s0).result =
        Except.error (ExportError.samplingFailed k) ∧
      (encodeMp4Animation env params s0).state = restoredState params s0) := by
  refine ⟨encodeWebm_result, ?_⟩
  intro env params s0 d k hvp hd hfail hN hk
  rw [encodeMp4_eq_job env params s0 d hvp hd]
  exact ⟨mp4Job_sampling_fail env params s0 d k hfail hN hk,
    mp4Job_state env params s0 d⟩

/-- Claim C5 witness: the amended propagation/restoration behaviour at the
concrete failing job. -/
theorem claim5_witness :
    (encodeWebmAnimation envOk jobParams baseState).result = Except.ok () ∧
    ((encodeMp4Animation envFail jobParams baseState).result =
        Except.error (ExportError.samplingFailed 1) ∧
      (encodeMp4Animation envFail jobParams baseState).state =
        restoredState jobParams baseState) :=
  ⟨claim5_amended.1 envOk jobParams baseState,
   claim5_amended.2 envFail jobParams baseState 100 1 (by decide) rfl rfl
     (by norm_num +decide [sampleCountOf, resolvedFps, truthy, jobParams])
     (by norm_num +decide [sampleCountOf, resolvedFps, truthy, jobParams])⟩

/-- Claim C6 counterexample: for the in-bounds odd-width job (viewport
9×10 on a 10×10 canvas), the frame source is given the even-aligned 8×10
viewport, but both webm `ffmpeg` invocations declare `-s 10x10` — the raw
target dimensions, not the even-aligned ones — so "the even-aligned
dimensions are the ones passed to both the frame source and the encoder" is
false for the webm encoder. -/
theorem claim6_counterexample :
    (encodeWebmAnimation envOk paramsOdd baseState).ffmpegCalls.map
      FfmpegCall.sizeWidth = [10, 10] ∧
    ((encodeWebmAnimation envOk paramsOdd baseState).imageCalls.map
      fun c => c.viewport.width) = [8, 8, 8, 8] ∧
    evenAlign paramsOdd.viewport.width = 8 := by
  refine ⟨?_, ?_, by decide⟩ <;>
    norm_num +decide [encodeWebmAnimation, webmJob, overriddenState,
      mergePostprocessing, truthy, resolvedFps, sampleCountOf, evenAlign,
      normalizeViewport, loopIndices, sampleLoop, envOk, paramsOdd, vpOdd,
      baseState]

/-- Claim C6 (amended): odd viewport dimensions are decremented to the
nearest even number and even ones pass through; the even-aligned viewport is
what every frame grab uses in both variants, and the mp4 encoder's declared
dimensions are the even-aligned ones — but the webm `ffmpeg` invocations
declare the raw target `width`×`height` instead. -/
theorem claim6_amended (env : Env) (params : Mp4EncoderParams)
    (s0 : PresentationState) (d : ℚ)
    (hvp : viewportValid params) (hd : env.durationMs = some d) :
    (∃ e, (encodeMp4Animation env params s0).encoder = some e ∧
      e.width = evenAlign params.viewport.width ∧
      e.height = evenAlign params.viewport.height) ∧
    (∀ c ∈ (encodeMp4Animation env params s0).imageCalls,
      c = ⟨params.width, params.height, normalizeViewport params.viewport⟩) ∧
    (∀ c ∈ (encodeWebmAnimation env params s0).imageCalls,
      c = ⟨params.width, params.height, normalizeViewport params.viewport⟩) ∧
    (∀ c ∈ (encodeWebmAnimation env params s0).ffmpegCalls,
      c.sizeWidth = params.width ∧ c.sizeHeight = params.height) ∧
    (∀ v : Int, v % 2 = 0 → evenAlign v = v) ∧
    (∀ v : Int, v % 2 ≠ 0 → evenAlign v = v - 1) := by
  rw [encodeMp4_eq_job env params s0 d hvp hd, encodeWebm_eq_job env params s0 d hvp hd]
  obtain ⟨e, he, hw, hh, -, -, -⟩ := mp4Job_encoder_spec env params s0 d
  exact ⟨⟨e, he, hw, hh⟩, mp4Job_imageCalls env params s0 d,
    webmJob_imageCalls env params s0 d, webmJob_ffmpegCalls_shape env params s0 d,
    fun v hv => by simp [evenAlign, hv], fun v hv => by simp [evenAlign, hv]⟩

/-- Claim C6 witness: the amended dimension statement at the concrete
odd-width job. -/
theorem claim6_witness :
    (∃ e, (encodeMp4Animation envOk paramsOdd baseState).encoder = some e ∧
      e.width = evenAlign paramsOdd.viewport.width ∧
      e.height = evenAlign paramsOdd.viewport.height) ∧
    (∀ c ∈ (encodeMp4Animation envOk paramsOdd baseState).imageCalls,
      c = ⟨paramsOdd.width, paramsOdd.height, normalizeViewport paramsOdd.viewport⟩) ∧
    (∀ c ∈ (encodeWebmAnimation envOk paramsOdd baseState).imageCalls,
      c = ⟨paramsOdd.width, paramsOdd.height, normalizeViewport paramsOdd.viewport⟩) ∧
    (∀ c ∈ (encodeWebmAnimation envOk paramsOdd baseState).ffmpegCalls,
      c.sizeWidth = paramsOdd.width ∧ c.sizeHeight = paramsOdd.height) ∧
    (∀ v : Int, v % 2 = 0 → evenAlign v = v) ∧
    (∀ v : Int, v % 2 ≠ 0 → evenAlign v = v - 1) :=
  claim6_amended envOk paramsOdd baseState 100 (by decide) rfl

/-- Claim C7 counterexample: with a custom background, the active webm
variant applies it with `transparentBackground: true` — the flag is forced
ON, not OFF. -/
theorem claim7_counterexample :
    (encodeWebmAnimation envOk paramsBg baseState).overrideApplied =
      some (3, true) ∧
    (encodeWebmAnimation envOk paramsBg baseState).overrideApplied ≠
      some (3, false) := by
  constructor <;>
    norm_num +decide [encodeWebmAnimation, webmJob, overriddenState,
      mergePostprocessing, truthy, resolvedFps, sampleCountOf, evenAlign,
      normalizeViewport, loopIndices, sampleLoop, envOk, paramsBg, jobParams,
      vpFull, baseState]

/-- Claim C7 (amended): a job with a custom background sets the renderer
background to it, with the transparent-background flag forced OFF in
`encodeMp4Animation` but forced ON in `encodeWebmAnimation`; a job without
a custom background applies no override at that step in either variant. -/
theorem claim7_amended (env : Env) (params : Mp4EncoderParams)
    (s0 : PresentationState) (d : ℚ)
    (hvp : viewportValid params) (hd : env.durationMs = some d) :
    (encodeMp4Animation env params s0).overrideApplied =
      params.customBackground.map (fun c => (c, false)) ∧
    (encodeWebmAnimation env params s0).overrideApplied =
      params.customBackground.map (fun c => (c, true)) ∧
    (params.customBackground = none →
      (encodeMp4Animation env params s0).overrideApplied = none ∧
      (encodeWebmAnimation env params s0).overrideApplied = none) := by
  rw [encodeMp4_eq_job env params s0 d hvp hd, encodeWebm_eq_job env params s0 d hvp hd]
  refine ⟨mp4Job_overrideApplied env params s0 d,
    webmJob_overrideApplied env params s0 d, ?_⟩
  intro hnone
  rw [mp4Job_overrideApplied, webmJob_overrideApplied, hnone]
  exact ⟨rfl, rfl⟩

/-- Claim C7 witness: the amended background-override behaviour at the
concrete job with custom background color 3. -/
theorem claim7_witness :
    (encodeMp4Animation envOk paramsBg baseState).overrideApplied =
      paramsBg.customBackground.map (fun c => (c, false)) ∧
    (encodeWebmAnimation envOk paramsBg baseState).overrideApplied =
      paramsBg.customBackground.map (fun c => (c, true)) ∧
    (paramsBg.customBackground = none →
      (encodeMp4Animation envOk paramsBg baseState).overrideApplied = none ∧
      (encodeWebmAnimation envOk paramsBg baseState).overrideApplied = none) :=
  claim7_amended envOk paramsBg baseState 100 (by decide) rfl

/-- Claim C8 counterexample: a zero-length animation passes validation and
duration resolution (`durationMs = 0` is defined, only `undefined` is
rejected), yet the computed sample count is `ceil(0/1000 × 30) = 0`,
violating `sampleCount ≥ 1`. -/
theorem claim8_counterexample :
    (encodeMp4Animation envZero jobParams baseState).schedule.map
      Schedule.sampleCount = some 0 ∧
    ¬(1 : Int) ≤ 0 := by
  refine ⟨?_, by decide⟩
  norm_num +decide [encodeMp4Animation, mp4Job, configuredEncoder, freshEncoder,
    overriddenState, finallyBlock, mergePostprocessing, truthy, resolvedFps,
    sampleCountOf, evenAlign, normalizeViewport, loopIndices, sampleLoop, jobQp,
    envZero, jobParams, vpFull, baseState]

/-- Claim C8 (amended): for every job that passes validation and duration
resolution WITH a positive duration and positive resolved frame rate, the
schedule satisfies `sampleCount ≥ 1` and `stepMs > 0`. -/
theorem claim8_amended (env : Env) (params : Mp4EncoderParams)
    (s0 : PresentationState) (d : ℚ)
    (hvp : viewportValid params) (hd : env.durationMs = some d)
    (hdpos : 0 < d) (hfps : 0 < resolvedFps params.fps) :
    (encodeMp4Animation env params s0).schedule =
      some { fps := resolvedFps params.fps,
             sampleCount := sampleCountOf d (resolvedFps params.fps),
             stepMs := d / (sampleCountOf d (resolvedFps params.fps) : ℚ) } ∧
    1 ≤ sampleCountOf d (resolvedFps params.fps) ∧
    0 < d / (sampleCountOf d (resolvedFps params.fps) : ℚ) := by
  have hNpos : 0 < sampleCountOf d (resolvedFps params.fps) :=
    Int.ceil_pos.mpr (mul_pos (div_pos hdpos (by norm_num)) hfps)
  have hNQ : (0 : ℚ) < ((sampleCountOf d (resolvedFps params.fps) : Int) : ℚ) := by
    exact_mod_cast hNpos
  rw [encodeMp4_eq_job env params s0 d hvp hd]
  exact ⟨mp4Job_schedule env params s0 d, hNpos, div_pos hdpos hNQ⟩

/-- Claim C8 witness: the amended schedule invariant at the concrete 100 ms
job. -/
theorem claim8_witness :
    (encodeMp4Animation envOk jobParams baseState).schedule =
      some { fps := resolvedFps jobParams.fps,
             sampleCount := sampleCountOf 100 (resolvedFps jobParams.fps),
             stepMs := 100 / (sampleCountOf 100 (resolvedFps jobParams.fps) : ℚ) } ∧
    1 ≤ sampleCountOf 100 (resolvedFps jobParams.fps) ∧
    0 < (100 : ℚ) / (sampleCountOf 100 (resolvedFps jobParams.fps) : ℚ) :=
  claim8_amended envOk jobParams baseState 100 (by decide) rfl (by norm_num)
    (by norm_num [resolvedFps, truthy, jobParams])

/-- Claim C9 counterexample: when sampling fails at sample 1, the job exits
with the sampling error but the `finally` block does NOT delete the encoder
(`if (finalized) encoder.delete()` — and `finalized` is still false), so the
codec handle is not disposed on this exit path. -/
theorem claim9_counterexample :
    (encodeMp4Animation envFail jobParams baseState).result =
      Except.error (ExportError.samplingFailed 1) ∧
    ((encodeMp4Animation envFail jobParams baseState).encoder).map
      EncoderState.deleted = some false := by
  constructor <;>
    norm_num +decide [encodeMp4Animation, mp4Job, configuredEncoder, freshEncoder,
      overriddenState, finallyBlock, mergePostprocessing, truthy, resolvedFps,
      sampleCountOf, evenAlign, normalizeViewport, loopIndices, sampleLoop, jobQp,
      envFail, jobParams, vpFull, baseState]

/-- Claim C9 (amended): the encoder handle is deleted exactly when the
encoder was finalized: it IS deleted on the fully successful path, and it is
NOT deleted when sampling fails (nor when finalization fails, where
`finalized` also stays false). -/
theorem claim9_amended :
    (∀ (env : Env) (params : Mp4EncoderParams) (s0 : PresentationState) (d : ℚ),
      viewportValid params → env.durationMs = some d →
      ∃ e, (encodeMp4Animation env params s0).encoder = some e ∧
        e.deleted = e.finalized) ∧
    (∀ (env : Env) (params : Mp4EncoderParams) (s0 : PresentationState) (d : ℚ),
      viewportValid params → env.durationMs = some d →
      env.failAt = none → env.finalizeFails = false →
      0 ≤ sampleCountOf d (resolvedFps params.fps) →
      ((encodeMp4Animation env params s0).encoder).map EncoderState.deleted =
        some true) ∧
    (∀ (env : Env) (params : Mp4EncoderParams) (s0 : PresentationState) (d : ℚ)
      (k : Nat), viewportValid params → env.durationMs = some d →
      env.failAt = some k →
      0 ≤ sampleCountOf d (resolvedFps params.fps) →
      k ≤ (sampleCountOf d (resolvedFps params.fps)).toNat →
      ((encodeMp4Animation env params s0).encoder).map EncoderState.deleted =
        some false) := by
  refine ⟨?_, ?_, ?_⟩
  · intro env params s0 d hvp hd
    rw [encodeMp4_eq_job env params s0 d hvp hd]
    obtain ⟨e, he, -, -, -, -, hdel⟩ := mp4Job_encoder_spec env params s0 d
    exact ⟨e, he, hdel⟩
  · intro env params s0 d hvp hd hfail hfin hN
    rw [encodeMp4_eq_job env params s0 d hvp hd]
    exact mp4Job_success_encoder env params s0 d hfail hfin hN
  · intro env params s0 d k hvp hd hfail hN hk
    rw [encodeMp4_eq_job env params s0 d hvp hd]
    exact mp4Job_fail_encoder env params s0 d k hfail hN hk

/-- Claim C9 witness: the amended disposal behaviour at the concrete
successful and failing jobs. -/
theorem claim9_witness :
    (∃ e, (encodeMp4Animation envOk jobParams baseState).encoder = some e ∧
      e.deleted = e.finalized) ∧
    ((encodeMp4Animation envOk jobParams baseState).encoder).map
      EncoderState.deleted = some true ∧
    ((encodeMp4Animation envFail jobParams baseState).encoder).map
      EncoderState.deleted = some false :=
  ⟨claim9_amended.1 envOk jobParams baseState 100 (by decide) rfl,
   claim9_amended.2.1 envOk jobParams baseState 100 (by decide) rfl rfl rfl
     (by norm_num +decide [sampleCountOf, resolvedFps, truthy, jobParams]),
   claim9_amended.2.2 envFail jobParams baseState 100 1 (by decide) rfl rfl
     (by norm_num +decide [sampleCountOf, resolvedFps, truthy, jobParams])
     (by norm_num +decide [sampleCountOf, resolvedFps, truthy, jobParams])⟩

/-- Claim C10: a supplied `fps` of 0 (or omitted `fps`) is falsy and leaves
the encoder's built-in default frame rate 30; likewise a falsy
`quantizationParameter` leaves the default 33; and the sample schedule's
frame rate is never 0 for any parameters, since falsy values resolve to
30 and truthy values are nonzero by definition. -/
theorem claim10_falsy_defaults (env : Env) (params : Mp4EncoderParams)
    (s0 : PresentationState) (d : ℚ)
    (hvp : viewportValid params) (hd : env.durationMs = some d)
    (hfps : params.fps = none ∨ params.fps = some 0)
    (hq : params.quantizationParameter = none ∨
      params.quantizationParameter = some 0) :
    (∃ e, (encodeMp4Animation env params s0).encoder = some e ∧
      e.frameRate = 30 ∧ e.quantizationParameter = 33) ∧
    (encodeMp4Animation env params s0).schedule.map Schedule.fps =
      some (resolvedFps params.fps) ∧
    resolvedFps params.fps = 30 ∧
    (∀ f : Option ℚ, resolvedFps f ≠ 0) := by
  have h30 : resolvedFps params.fps = 30 := by
    rcases hfps with h | h <;> simp [resolvedFps, truthy, h]
  have h33 : jobQp params.quantizationParameter = 33 := by
    rcases hq with h | h <;> simp [jobQp, truthy, h]
  rw [encodeMp4_eq_job env params s0 d hvp hd]
  obtain ⟨e, he, -, -, hfr, hqp, -⟩ := mp4Job_encoder_spec env params s0 d
  refine ⟨⟨e, he, by rw [hfr, h30], by rw [hqp, h33]⟩, ?_, h30, resolvedFps_ne_zero⟩
  rw [mp4Job_schedule]; rfl

/-- Claim C10 witness: the falsy-default behaviour at the concrete job with
`fps = 0` and `quantizationParameter = 0`. -/
theorem claim10_witness :
    (∃ e, (encodeMp4Animation envOk paramsFalsy baseState).encoder = some e ∧
      e.frameRate = 30 ∧ e.quantizationParameter = 33) ∧
    (encodeMp4Animation envOk paramsFalsy baseState).schedule.map Schedule.fps =
      some (resolvedFps paramsFalsy.fps) ∧
    resolvedFps paramsFalsy.fps = 30 ∧
    (∀ f : Option ℚ, resolvedFps f ≠ 0) :=
  claim10_falsy_defaults envOk paramsFalsy baseState 100 (by decide) rfl
    (Or.inr rfl) (Or.inr rfl)

end Mp4Export
